import Mathlib

/-!
Verification of the MicroRacer controller scripts.

The definitions below are a shallow embedding of the Python sources:

* `calculate_motor_command`, `send_command` and `control_loop` come from
  src/scripts/controller_dualsense.py (tank-drive mixing, the 5-byte wire
  frame, and the 20 Hz control loop with emergency stop, quit handling and
  dpad speed-level adjustment).
* The differential-steer mixing policy is modelled from the spec, since the
  repository snapshot only keeps the keyboard preset script
  (src/scripts/controller_new.py) of that lineage.

Python floats are embedded as rationals; the Python `int(...)` conversion is
truncation toward zero (`pytrunc`); Python ints are `Int`.
-/

namespace Racer

/-- Configuration constant DEADZONE = 0.10 from controller_dualsense.py. -/
def DEADZONE : ℚ := 1 / 10

/-- Configuration constant MAX_SPEED = 50 from controller_dualsense.py. -/
def MAX_SPEED : ℚ := 50

/-- Configuration constant MAX_MIXER = 30 from controller_dualsense.py. -/
def MAX_MIXER : ℚ := 30

/-- Configuration constant MAX_SPEED_LEVELS = [50, 75, 100]. -/
def MAX_SPEED_LEVELS : List ℕ := [50, 75, 100]

/-- Python `int(q)` on a rational: truncation toward zero. -/
def pytrunc (q : ℚ) : ℤ := if 0 ≤ q then ⌊q⌋ else ⌈q⌉

/-- The deadzone snap applied to each axis at the top of
`calculate_motor_command` (lines 107-110): values of magnitude below
DEADZONE are replaced by 0. -/
def applyDeadzone (v : ℚ) : ℚ := if |v| < DEADZONE then 0 else v

/-- The result tuple `(speedA, dirA, speedB, dirB, duration)` of
`calculate_motor_command`, also the payload of `send_command`. -/
structure MotorCommand where
  speedA : ℤ
  dirA : ℤ
  speedB : ℤ
  dirB : ℤ
  duration : ℤ
deriving DecidableEq, Repr

/-- The stop command `(0, 1, 0, 1, 1)` sent on quit, on emergency stop and
when both sticks are centered. -/
def stopCommand : MotorCommand := ⟨0, 1, 0, 1, 1⟩

/-- Line 118: `speed = int(-left_stick_y * MAX_SPEED * (max_speed_limit / 100.0))`. -/
def rawSpeed (y L : ℚ) : ℤ := pytrunc (-y * MAX_SPEED * (L / 100))

/-- Line 121: `mixer = int(left_stick_x * MAX_MIXER * (max_speed_limit / 100.0))`. -/
def rawMixer (x L : ℚ) : ℤ := pytrunc (x * MAX_MIXER * (L / 100))

/-- Lines 123-128: the pure-turn boost. `x` and `y` are the post-deadzone
axis values; when `|y| < DEADZONE` and `|x| >= DEADZONE` the mixer is pushed
25 further away from zero (unchanged when it is exactly zero). -/
def boostedMixer (x y L : ℚ) : ℤ :=
  if |y| < DEADZONE ∧ DEADZONE ≤ |x| then
    if 0 < rawMixer x L then rawMixer x L + 25
    else if rawMixer x L < 0 then rawMixer x L - 25
    else rawMixer x L
  else rawMixer x L

/-- Lines 134-145: `speed_a` and `speed_b` become motor commands, the
magnitude as wheel speed clamped by `min(100, .)`, the sign as direction
(`>= 0` meaning forward = 1), with duration 2. -/
def tankCommand (speed_a speed_b : ℤ) : MotorCommand :=
  { speedA := min 100 |speed_a|
    dirA := if 0 ≤ speed_a then 1 else 0
    speedB := min 100 |speed_b|
    dirB := if 0 ≤ speed_b then 1 else 0
    duration := 2 }

/-- `calculate_motor_command` from controller_dualsense.py (lines 89-145):
deadzone snap, centered-stick stop, then tank-drive mixing
(`speed_a = speed + mixer`, `speed_b = speed - mixer`) with the pure-turn
boost, finished by the magnitude and sign split of `tankCommand`. -/
def calculate_motor_command (stick_x stick_y L : ℚ) : MotorCommand :=
  if applyDeadzone stick_x = 0 ∧ applyDeadzone stick_y = 0 then stopCommand
  else
    tankCommand
      (rawSpeed (applyDeadzone stick_y) L +
        boostedMixer (applyDeadzone stick_x) (applyDeadzone stick_y) L)
      (rawSpeed (applyDeadzone stick_y) L -
        boostedMixer (applyDeadzone stick_x) (applyDeadzone stick_y) L)

/-- `send_command` builds `bytearray([speedA, directionA, speedB, directionB,
duration])`; the bytearray constructor raises unless every field lies in
[0, 256). The frame is returned when construction succeeds. -/
def send_command (c : MotorCommand) : Option (List ℤ) :=
  if 0 ≤ c.speedA ∧ c.speedA < 256 ∧ 0 ≤ c.dirA ∧ c.dirA < 256 ∧
     0 ≤ c.speedB ∧ c.speedB < 256 ∧ 0 ≤ c.dirB ∧ c.dirB < 256 ∧
     0 ≤ c.duration ∧ c.duration < 256 then
    some [c.speedA, c.dirA, c.speedB, c.dirB, c.duration]
  else none

/-- The controller reading taken at the top of every loop iteration
(lines 158-166): stick axes, the X button (emergency stop), the Circle
button (quit), and the raw dpad hat tuple. -/
structure InputSample where
  leftX : ℚ
  leftY : ℚ
  buttonX : Bool
  buttonCircle : Bool
  dpad : ℤ × ℤ

/-- The loop-local mutable state of `control_loop` (lines 149-151):
`max_speed_index`, `last_dpad_state` and `emergency_stop_active`. -/
structure LoopState where
  maxSpeedIndex : ℤ
  lastDpad : ℤ × ℤ
  emergencyStopActive : Bool
deriving DecidableEq, Repr

/-- The initial loop state: index 2 (100 percent), dpad (0, 0), emergency
stop inactive. -/
def initState : LoopState := ⟨2, (0, 0), false⟩

/-- Lines 184-189: the dpad speed adjustment. When the hat tuple differs
from the previous reading, a y component of 1 increments the index
(saturating at `len(MAX_SPEED_LEVELS) - 1`) and a y component of -1
decrements it (saturating at 0); otherwise the index is unchanged. -/
def dpadIndex (s : LoopState) (d : ℤ × ℤ) : ℤ :=
  if d ≠ s.lastDpad then
    if d.2 = 1 then min ((MAX_SPEED_LEVELS.length : ℤ) - 1) (s.maxSpeedIndex + 1)
    else if d.2 = -1 then max 0 (s.maxSpeedIndex - 1)
    else s.maxSpeedIndex
  else s.maxSpeedIndex

/-- Line 191: `max_speed = MAX_SPEED_LEVELS[max_speed_index]`. The index is
kept inside the list bounds by `control_loop`, so the default is never
reached there. -/
def levelOf (idx : ℤ) : ℚ := (MAX_SPEED_LEVELS.getD idx.toNat 0 : ℕ)

/-- Line 194: the command computed on a normal tick, after the dpad
adjustment has selected the speed level. -/
def normalCmd (s : LoopState) (i : InputSample) : MotorCommand :=
  calculate_motor_command i.leftX i.leftY (levelOf (dpadIndex s i.dpad))

/-- One iteration of the `while True` body of `control_loop`
(lines 154-226). The transport is modelled by `ok`, telling for each frame
whether the BLE write succeeds; a raised write error terminates the loop
with the exception propagated (caught and reported by `main`).

The first component lists the frames whose write was attempted during the
iteration, in order. The second is `some (s, cont)` when the iteration
completes normally (`cont = false` on `break`) and `none` when an exception
propagates out of the loop. -/
def tick (ok : MotorCommand → Bool) (s : LoopState) (i : InputSample) :
    List MotorCommand × Option (LoopState × Bool) :=
  if i.buttonCircle then
    ([stopCommand], if ok stopCommand then some (s, false) else none)
  else if i.buttonX then
    if s.emergencyStopActive then
      ([], some (s, true))
    else
      ([stopCommand],
        if ok stopCommand then some ({ s with emergencyStopActive := true }, true)
        else none)
  else
    ([normalCmd s i],
      if ok (normalCmd s i) then
        some (⟨dpadIndex s i.dpad, i.dpad, false⟩, true)
      else none)

/-- A transport whose writes always succeed. -/
def okTransport : MotorCommand → Bool := fun _ => true

/-- The frames sent during one iteration, with a fault-free transport. -/
def tickFrames (s : LoopState) (i : InputSample) : List MotorCommand :=
  (tick okTransport s i).1

/-- The loop state after one iteration, with a fault-free transport. -/
def tickState (s : LoopState) (i : InputSample) : LoopState :=
  match (tick okTransport s i).2 with
  | some (s', _) => s'
  | none => s

/-- Running the loop on a list of per-tick input samples with a fault-free
transport: the list of frames sent on each iteration, stopping after an
iteration that breaks out of the loop. -/
def run (s : LoopState) : List InputSample → List (List MotorCommand)
  | [] => []
  | i :: is =>
    match tick okTransport s i with
    | (fs, some (s', true)) => fs :: run s' is
    | (fs, _) => [fs]

/-- Modelled from the spec: MIN_SPEED (around 15), the minimum speed at
which the drivetrain reliably moves, used by the differential-steer policy
absent from src/. -/
def MIN_SPEED : ℤ := 15

/-- Modelled from the spec: the differential-steer base speed,
`|y| * level` floored to an integer and clamped to `[MIN_SPEED, level]`. -/
def diffBase (y : ℚ) (level : ℤ) : ℤ :=
  min level (max MIN_SPEED (pytrunc (|y| * level)))

/-- Modelled from the spec: the shared wheel direction of the
differential-steer policy, forward (1) when `y < 0`. -/
def diffDir (y : ℚ) : ℤ := if y < 0 then 1 else 0

/-- Modelled from the spec: the inside wheel speed of the
differential-steer policy, the base speed reduced by
`base * |x| * 0.5` (floored) and re-clamped to MIN_SPEED. -/
def diffInner (x y : ℚ) (level : ℤ) : ℤ :=
  max MIN_SPEED
    (diffBase y level - pytrunc ((diffBase y level : ℚ) * |x| * (1 / 2)))

/-- Modelled from the spec: the differential-steer mixing policy (policy B
of section 4.1), whose historical implementation is not present under src/
(controller_new.py now sends fixed keyboard presets). Deadzone and stop
handling are shared with tank drive; the base speed is `|y| * level`
floored and clamped to `[MIN_SPEED, level]`; both wheels share one
direction, forward when `y < 0`; steering reduces the inside wheel
(the right wheel B when turning right, `x > 0`, the left wheel A when
turning left) while the outside wheel keeps the base speed. -/
def translate_differential (stick_x stick_y : ℚ) (level : ℤ) : MotorCommand :=
  if applyDeadzone stick_x = 0 ∧ applyDeadzone stick_y = 0 then stopCommand
  else
    if 0 < applyDeadzone stick_x then
      ⟨diffBase (applyDeadzone stick_y) level, diffDir (applyDeadzone stick_y),
       diffInner (applyDeadzone stick_x) (applyDeadzone stick_y) level,
       diffDir (applyDeadzone stick_y), 2⟩
    else if applyDeadzone stick_x < 0 then
      ⟨diffInner (applyDeadzone stick_x) (applyDeadzone stick_y) level,
       diffDir (applyDeadzone stick_y),
       diffBase (applyDeadzone stick_y) level, diffDir (applyDeadzone stick_y), 2⟩
    else
      ⟨diffBase (applyDeadzone stick_y) level, diffDir (applyDeadzone stick_y),
       diffBase (applyDeadzone stick_y) level, diffDir (applyDeadzone stick_y), 2⟩

/-- Well-formedness of a motor command as the spec states it: wheel speeds
in [0, 100], directions 0 or 1, duration 1 or 2, and the 5-byte frame of
`send_command` always constructible. -/
def commandWellFormed (c : MotorCommand) : Prop :=
  0 ≤ c.speedA ∧ c.speedA ≤ 100 ∧ (c.dirA = 0 ∨ c.dirA = 1) ∧
  0 ≤ c.speedB ∧ c.speedB ≤ 100 ∧ (c.dirB = 0 ∨ c.dirB = 1) ∧
  (c.duration = 1 ∨ c.duration = 2) ∧
  send_command c = some [c.speedA, c.dirA, c.speedB, c.dirB, c.duration]

/-- The two mixing policies named by the spec. -/
inductive Policy where
  | tank
  | differential
deriving DecidableEq

/-- Modelled from the spec: the produced pure entry point
`translate(input, level, policy)` of section 6, dispatching between the two
mixing policies. Tank drive is `calculate_motor_command` from
controller_dualsense.py. -/
def translate (stick_x stick_y : ℚ) (level : ℤ) : Policy → MotorCommand
  | Policy.tank => calculate_motor_command stick_x stick_y (level : ℚ)
  | Policy.differential => translate_differential stick_x stick_y level

/-- A controller sample with the emergency X button held, sticks centered. -/
def pressSample : InputSample := ⟨0, 0, true, false, (0, 0)⟩

/-- A controller sample with all buttons released and sticks centered. -/
def releaseSample : InputSample := ⟨0, 0, false, false, (0, 0)⟩

/-- A controller sample with the stick pushed fully forward, no buttons. -/
def fwdSample : InputSample := ⟨0, -1, false, false, (0, 0)⟩

/-- A controller sample with the Circle (quit) button pressed. -/
def quitSample : InputSample := ⟨0, 0, false, true, (0, 0)⟩

/-- A controller sample with the dpad held down. -/
def dpadDownSample : InputSample := ⟨0, 0, false, false, (0, -1)⟩

/-- A controller sample with the dpad held down and to the right: the hat
tuple changes while its down component stays -1. -/
def dpadDownRightSample : InputSample := ⟨0, 0, false, false, (1, -1)⟩

/-- A transport whose writes always fail. -/
def failTransport : MotorCommand → Bool := fun _ => false

/-! ### Basic facts about `pytrunc` and `applyDeadzone` -/

theorem pytrunc_intCast (n : ℤ) : pytrunc (n : ℚ) = n := by
  unfold pytrunc
  split
  · exact Int.floor_intCast n
  · exact Int.ceil_intCast n

theorem pytrunc_eq_of_eq_intCast {q : ℚ} {n : ℤ} (h : q = (n : ℚ)) : pytrunc q = n :=
  h ▸ pytrunc_intCast n

theorem pytrunc_zero : pytrunc 0 = 0 :=
  pytrunc_eq_of_eq_intCast (by norm_num)

theorem pytrunc_neg (q : ℚ) : pytrunc (-q) = -pytrunc q := by
  unfold pytrunc
  rcases lt_trichotomy q 0 with h | h | h
  · rw [if_pos (by linarith), if_neg (not_le.mpr h), Int.floor_neg]
  · subst h; simp
  · rw [if_neg (by simpa using h), if_pos h.le, Int.ceil_neg]

theorem abs_pytrunc_le (q : ℚ) : |(pytrunc q : ℚ)| ≤ |q| := by
  unfold pytrunc
  split
  · next h =>
    rw [abs_of_nonneg h,
      abs_of_nonneg (by exact_mod_cast Int.floor_nonneg.mpr h)]
    exact Int.floor_le q
  · next h =>
    push_neg at h
    rw [abs_of_nonpos h.le,
      abs_of_nonpos (Int.cast_nonpos.mpr (Int.ceil_le.mpr (by exact_mod_cast h.le)))]
    simpa using Int.le_ceil q

theorem applyDeadzone_small {v : ℚ} (h : |v| < DEADZONE) : applyDeadzone v = 0 :=
  if_pos h

theorem applyDeadzone_big {v : ℚ} (h : DEADZONE ≤ |v|) : applyDeadzone v = v :=
  if_neg (not_lt.mpr h)

theorem applyDeadzone_cases (v : ℚ) :
    applyDeadzone v = 0 ∨ (applyDeadzone v = v ∧ DEADZONE ≤ |applyDeadzone v|) := by
  unfold applyDeadzone
  split
  · exact Or.inl rfl
  · next h => exact Or.inr ⟨rfl, not_lt.mp h⟩

theorem abs_applyDeadzone_le (v : ℚ) : |applyDeadzone v| ≤ |v| := by
  unfold applyDeadzone
  split
  · rw [abs_zero]; exact abs_nonneg v
  · exact le_refl _

theorem applyDeadzone_neg (v : ℚ) : applyDeadzone (-v) = -applyDeadzone v := by
  unfold applyDeadzone
  rw [abs_neg]
  split
  · exact neg_zero.symm
  · rfl

/-! ### Bounds on the tank-drive mixing quantities -/

theorem rawSpeed_zero (L : ℚ) : rawSpeed 0 L = 0 := by
  unfold rawSpeed
  exact pytrunc_eq_of_eq_intCast (by norm_num)

theorem rawMixer_zero (L : ℚ) : rawMixer 0 L = 0 := by
  unfold rawMixer
  exact pytrunc_eq_of_eq_intCast (by norm_num)

theorem abs_rawSpeed_le {y L : ℚ} (hy : |y| ≤ 1) (hL : 0 ≤ L) :
    |(rawSpeed y L : ℚ)| ≤ L / 2 := by
  unfold rawSpeed
  refine le_trans (abs_pytrunc_le _) ?_
  have h1 : -y * MAX_SPEED * (L / 100) = -y * (L / 2) := by
    rw [show MAX_SPEED = 50 from rfl]; ring
  rw [h1, abs_mul, abs_neg, abs_of_nonneg (by positivity : (0:ℚ) ≤ L / 2)]
  calc |y| * (L / 2) ≤ 1 * (L / 2) :=
        mul_le_mul_of_nonneg_right hy (by positivity)
    _ = L / 2 := one_mul _

theorem abs_rawMixer_le {x L : ℚ} (hx : |x| ≤ 1) (hL : 0 ≤ L) :
    |(rawMixer x L : ℚ)| ≤ 3 * L / 10 := by
  unfold rawMixer
  refine le_trans (abs_pytrunc_le _) ?_
  have h1 : x * MAX_MIXER * (L / 100) = x * (3 * L / 10) := by
    rw [show MAX_MIXER = 30 from rfl]; ring
  rw [h1, abs_mul, abs_of_nonneg (by positivity : (0:ℚ) ≤ 3 * L / 10)]
  calc |x| * (3 * L / 10) ≤ 1 * (3 * L / 10) :=
        mul_le_mul_of_nonneg_right hx (by positivity)
    _ = 3 * L / 10 := one_mul _

theorem abs_boostedMixer_le (sy : ℚ) {sx L : ℚ} (hx : |sx| ≤ 1) (h50 : 50 ≤ L) :
    |(boostedMixer (applyDeadzone sx) (applyDeadzone sy) L : ℚ)| ≤ 3 * L / 10 + 25 := by
  have hx' : |applyDeadzone sx| ≤ 1 := le_trans (abs_applyDeadzone_le sx) hx
  have hm : |(rawMixer (applyDeadzone sx) L : ℚ)| ≤ 3 * L / 10 :=
    abs_rawMixer_le hx' (by linarith)
  unfold boostedMixer
  split
  · split
    · next h =>
      push_cast
      have := abs_add ((rawMixer (applyDeadzone sx) L : ℚ)) 25
      calc |(rawMixer (applyDeadzone sx) L : ℚ) + 25| ≤
            |(rawMixer (applyDeadzone sx) L : ℚ)| + |(25:ℚ)| := this
        _ ≤ 3 * L / 10 + 25 := by rw [abs_of_nonneg (by norm_num : (0:ℚ) ≤ 25)]; linarith
    · split
      · next h =>
        push_cast
        have := abs_sub ((rawMixer (applyDeadzone sx) L : ℚ)) 25
        calc |(rawMixer (applyDeadzone sx) L : ℚ) - 25| ≤
              |(rawMixer (applyDeadzone sx) L : ℚ)| + |(25:ℚ)| := this
          _ ≤ 3 * L / 10 + 25 := by rw [abs_of_nonneg (by norm_num : (0:ℚ) ≤ 25)]; linarith
      · exact le_trans hm (by linarith)
  · exact le_trans hm (by linarith)

theorem deadzone_snap_speed {sy L : ℚ} (h : |applyDeadzone sy| < DEADZONE) :
    rawSpeed (applyDeadzone sy) L = 0 := by
  rcases applyDeadzone_cases sy with h0 | ⟨_, hge⟩
  · rw [h0]; exact rawSpeed_zero L
  · exact absurd h (not_lt.mpr hge)

theorem abs_mix_le {sx sy L : ℚ} (hx : |sx| ≤ 1) (hy : |sy| ≤ 1)
    (h50 : 50 ≤ L) (h100 : L ≤ 100) :
    ((|rawSpeed (applyDeadzone sy) L + boostedMixer (applyDeadzone sx) (applyDeadzone sy) L| : ℤ) : ℚ) ≤ L ∧
    ((|rawSpeed (applyDeadzone sy) L - boostedMixer (applyDeadzone sx) (applyDeadzone sy) L| : ℤ) : ℚ) ≤ L := by
  have hy' : |applyDeadzone sy| ≤ 1 := le_trans (abs_applyDeadzone_le sy) hy
  have hL0 : (0:ℚ) ≤ L := by linarith
  by_cases hb : |applyDeadzone sy| < DEADZONE ∧ DEADZONE ≤ |applyDeadzone sx|
  · -- pure-turn boost case: the speed term is zero and the mixer is at most
    -- 3L/10 + 25, which is at most L for L at least 50
    have hs0 : rawSpeed (applyDeadzone sy) L = 0 := deadzone_snap_speed hb.1
    have hmb := abs_boostedMixer_le sy hx h50
    rw [hs0]
    constructor <;>
      · push_cast
        simp only [zero_add, zero_sub, abs_neg]
        linarith
  · -- no boost: the mixer is the raw mixer, so speed and mixer together stay
    -- within L/2 + 3L/10
    have hmix : boostedMixer (applyDeadzone sx) (applyDeadzone sy) L =
        rawMixer (applyDeadzone sx) L := by
      unfold boostedMixer
      exact if_neg hb
    have hx' : |applyDeadzone sx| ≤ 1 := le_trans (abs_applyDeadzone_le sx) hx
    have hsb : |(rawSpeed (applyDeadzone sy) L : ℚ)| ≤ L / 2 := abs_rawSpeed_le hy' hL0
    have hmb : |(rawMixer (applyDeadzone sx) L : ℚ)| ≤ 3 * L / 10 :=
      abs_rawMixer_le hx' hL0
    rw [hmix]
    constructor
    · push_cast
      have := abs_add ((rawSpeed (applyDeadzone sy) L : ℚ))
        ((rawMixer (applyDeadzone sx) L : ℚ))
      linarith
    · push_cast
      have := abs_sub ((rawSpeed (applyDeadzone sy) L : ℚ))
        ((rawMixer (applyDeadzone sx) L : ℚ))
      linarith

theorem tankCommand_speedA (a b : ℤ) : (tankCommand a b).speedA = min 100 |a| := rfl

theorem tankCommand_speedB (a b : ℤ) : (tankCommand a b).speedB = min 100 |b| := rfl

theorem commandWellFormed_tank (a b : ℤ) : commandWellFormed (tankCommand a b) := by
  have h1 : 0 ≤ min 100 |a| := le_min (by norm_num) (abs_nonneg a)
  have h2 : min 100 |a| ≤ 100 := min_le_left _ _
  have h3 : 0 ≤ min 100 |b| := le_min (by norm_num) (abs_nonneg b)
  have h4 : min 100 |b| ≤ 100 := min_le_left _ _
  have hd1 : (tankCommand a b).dirA = 0 ∨ (tankCommand a b).dirA = 1 := by
    show (if 0 ≤ a then (1:ℤ) else 0) = 0 ∨ (if 0 ≤ a then (1:ℤ) else 0) = 1
    split
    · exact Or.inr rfl
    · exact Or.inl rfl
  have hd2 : (tankCommand a b).dirB = 0 ∨ (tankCommand a b).dirB = 1 := by
    show (if 0 ≤ b then (1:ℤ) else 0) = 0 ∨ (if 0 ≤ b then (1:ℤ) else 0) = 1
    split
    · exact Or.inr rfl
    · exact Or.inl rfl
  have hd1' : 0 ≤ (tankCommand a b).dirA ∧ (tankCommand a b).dirA < 256 := by
    rcases hd1 with h | h <;> rw [h] <;> norm_num
  have hd2' : 0 ≤ (tankCommand a b).dirB ∧ (tankCommand a b).dirB < 256 := by
    rcases hd2 with h | h <;> rw [h] <;> norm_num
  refine ⟨h1, h2, hd1, h3, h4, hd2, Or.inr rfl, ?_⟩
  unfold send_command
  exact if_pos ⟨h1, by rw [tankCommand_speedA]; omega, hd1'.1, hd1'.2,
    h3, by rw [tankCommand_speedB]; omega, hd2'.1, hd2'.2,
    by norm_num [tankCommand], by norm_num [tankCommand]⟩

/-! ### Claim theorems about the tank-drive mixer -/

/-- C1: for every stick input in [-1,1] x [-1,1] and every speed level in
{50, 75, 100}, `calculate_motor_command` returns wheel speeds in [0,100],
directions in {0,1} and a duration in {1,2}, so the 5-byte frame built by
`send_command` always exists (the bytearray construction never raises). -/
theorem C1_frame_always_encodable (x y L : ℚ)
    (hx : -1 ≤ x ∧ x ≤ 1) (hy : -1 ≤ y ∧ y ≤ 1)
    (hL : L = 50 ∨ L = 75 ∨ L = 100) :
    commandWellFormed (calculate_motor_command x y L) := by
  unfold calculate_motor_command
  split
  · unfold commandWellFormed send_command stopCommand
    decide
  · exact commandWellFormed_tank _ _

/-- Witness for C1 at stick (1/2, -1) and level 75. -/
theorem C1_witness : commandWellFormed (calculate_motor_command (1/2) (-1) 75) :=
  C1_frame_always_encodable (1/2) (-1) 75 ⟨by norm_num, by norm_num⟩
    ⟨by norm_num, by norm_num⟩ (Or.inr (Or.inl rfl))

/-- C3: when both stick axes are strictly inside the deadzone, the command
is the canonical stop command (0, forward, 0, forward, duration 1),
whatever the speed level. -/
theorem C3_deadzone_stop (x y L : ℚ) (hx : |x| < DEADZONE) (hy : |y| < DEADZONE) :
    calculate_motor_command x y L = stopCommand := by
  unfold calculate_motor_command
  rw [applyDeadzone_small hx, applyDeadzone_small hy]
  simp

/-- Witness for C3 at stick (1/20, -1/20) and level 75. -/
theorem C3_witness : calculate_motor_command (1/20) (-(1/20)) 75 = stopCommand :=
  C3_deadzone_stop (1/20) (-(1/20)) 75
    (by rw [abs_of_nonneg (by norm_num : (0:ℚ) ≤ 1/20)]; norm_num [DEADZONE])
    (by rw [abs_of_nonpos (by norm_num : -(1/20 : ℚ) ≤ 0)]; norm_num [DEADZONE])

/-- C4: for every stick input in range and every speed level L in
{50, 75, 100}, both wheel speeds of the produced command are at most L. -/
theorem C4_speed_within_level (x y L : ℚ)
    (hx : -1 ≤ x ∧ x ≤ 1) (hy : -1 ≤ y ∧ y ≤ 1)
    (hL : L = 50 ∨ L = 75 ∨ L = 100) :
    ((calculate_motor_command x y L).speedA : ℚ) ≤ L ∧
    ((calculate_motor_command x y L).speedB : ℚ) ≤ L := by
  have h50 : (50:ℚ) ≤ L := by rcases hL with h | h | h <;> rw [h] <;> norm_num
  have h100 : L ≤ 100 := by rcases hL with h | h | h <;> rw [h] <;> norm_num
  have habs := abs_mix_le (abs_le.mpr hx) (abs_le.mpr hy) h50 h100
  unfold calculate_motor_command
  split
  · constructor <;> · show ((0:ℤ) : ℚ) ≤ L; push_cast; linarith
  · constructor
    · rw [tankCommand_speedA]
      refine le_trans ?_ habs.1
      exact Int.cast_le.mpr (min_le_right _ _)
    · rw [tankCommand_speedB]
      refine le_trans ?_ habs.2
      exact Int.cast_le.mpr (min_le_right _ _)

/-- Witness for C4 at stick (1, 1) and level 50. -/
theorem C4_witness :
    ((calculate_motor_command 1 1 50).speedA : ℚ) ≤ 50 ∧
    ((calculate_motor_command 1 1 50).speedB : ℚ) ≤ 50 :=
  C4_speed_within_level 1 1 50 ⟨by norm_num, by norm_num⟩
    ⟨by norm_num, by norm_num⟩ (Or.inl rfl)

/-! ### Concrete evaluations of the tank-drive mixer -/

theorem abs_zero_lt_dz : |(0:ℚ)| < DEADZONE := by
  rw [abs_zero]; norm_num [DEADZONE]

theorem dz_le_abs_one : DEADZONE ≤ |(1:ℚ)| := by
  rw [abs_of_nonneg (by norm_num : (0:ℚ) ≤ 1)]; norm_num [DEADZONE]

theorem dz_le_abs_negOne : DEADZONE ≤ |(-1:ℚ)| := by
  rw [abs_neg, abs_of_nonneg (by norm_num : (0:ℚ) ≤ 1)]; norm_num [DEADZONE]

theorem calc_center (L : ℚ) : calculate_motor_command 0 0 L = stopCommand := by
  unfold calculate_motor_command
  rw [applyDeadzone_small abs_zero_lt_dz]
  simp

theorem calc_fwd100 : calculate_motor_command 0 (-1) 100 = ⟨50, 1, 50, 1, 2⟩ := by
  have hax : applyDeadzone (0:ℚ) = 0 := applyDeadzone_small abs_zero_lt_dz
  have hay : applyDeadzone (-1:ℚ) = -1 := applyDeadzone_big dz_le_abs_negOne
  have hs : rawSpeed (-1) 100 = 50 := by
    unfold rawSpeed
    exact pytrunc_eq_of_eq_intCast (by norm_num [MAX_SPEED])
  have hb : boostedMixer 0 (-1) 100 = 0 := by
    unfold boostedMixer
    rw [if_neg, rawMixer_zero]
    rw [abs_neg, abs_of_nonneg (by norm_num : (0:ℚ) ≤ 1)]
    norm_num [DEADZONE]
  unfold calculate_motor_command
  rw [hax, hay, if_neg (by norm_num : ¬((0:ℚ) = 0 ∧ (-1:ℚ) = 0)), hs, hb]
  unfold tankCommand
  norm_num

/-! ### Oddness of the mixer in the x axis -/

theorem rawMixer_neg (x L : ℚ) : rawMixer (-x) L = -rawMixer x L := by
  unfold rawMixer
  rw [show -x * MAX_MIXER * (L / 100) = -(x * MAX_MIXER * (L / 100)) by ring,
    pytrunc_neg]

theorem boostedMixer_neg (x y L : ℚ) : boostedMixer (-x) y L = -boostedMixer x y L := by
  unfold boostedMixer
  rw [abs_neg, rawMixer_neg]
  split
  · split_ifs <;> omega
  · rfl

/-! ### Claim theorems: pure-turn boost and mirror symmetry -/

/-- C7: at full right stick, centered y and level 100, the mixer 30 is
boosted by 25 to 55 and the wheels get speed 55 with opposite directions
(A forward, B backward), duration 2. -/
theorem C7_pure_turn_boost : calculate_motor_command 1 0 100 = ⟨55, 1, 55, 0, 2⟩ := by
  have hax : applyDeadzone (1:ℚ) = 1 := applyDeadzone_big dz_le_abs_one
  have hay : applyDeadzone (0:ℚ) = 0 := applyDeadzone_small abs_zero_lt_dz
  have hm : rawMixer 1 100 = 30 := by
    unfold rawMixer
    exact pytrunc_eq_of_eq_intCast (by norm_num [MAX_MIXER])
  have hb : boostedMixer 1 0 100 = 55 := by
    unfold boostedMixer
    rw [if_pos ⟨abs_zero_lt_dz, dz_le_abs_one⟩, hm]
    norm_num
  unfold calculate_motor_command
  rw [hax, hay, if_neg (by norm_num : ¬((1:ℚ) = 0 ∧ (0:ℚ) = 0)), rawSpeed_zero, hb]
  unfold tankCommand
  norm_num

/-- C9: steering is left/right mirror-symmetric: negating the x axis swaps
the motor A and motor B (speed, direction) pairs and keeps the duration. -/
theorem C9_mirror_symmetry (x y L : ℚ) :
    calculate_motor_command (-x) y L =
      ⟨(calculate_motor_command x y L).speedB, (calculate_motor_command x y L).dirB,
       (calculate_motor_command x y L).speedA, (calculate_motor_command x y L).dirA,
       (calculate_motor_command x y L).duration⟩ := by
  unfold calculate_motor_command
  rw [applyDeadzone_neg]
  simp only [neg_eq_zero, boostedMixer_neg, ← sub_eq_add_neg, sub_neg_eq_add]
  split
  · rfl
  · rfl

/-! ### Tick-level behavior of the control loop -/

theorem tick_quit (ok : MotorCommand → Bool) (s : LoopState) (i : InputSample)
    (hC : i.buttonCircle = true) :
    tick ok s i = ([stopCommand], if ok stopCommand then some (s, false) else none) := by
  simp [tick, hC]

theorem tick_press (ok : MotorCommand → Bool) (s : LoopState) (i : InputSample)
    (hX : i.buttonX = true) (hC : i.buttonCircle = false)
    (hE : s.emergencyStopActive = false) :
    tick ok s i =
      ([stopCommand],
        if ok stopCommand then some ({ s with emergencyStopActive := true }, true)
        else none) := by
  simp [tick, hX, hC, hE]

theorem tick_held (ok : MotorCommand → Bool) (s : LoopState) (i : InputSample)
    (hX : i.buttonX = true) (hC : i.buttonCircle = false)
    (hE : s.emergencyStopActive = true) :
    tick ok s i = ([], some (s, true)) := by
  simp [tick, hX, hC, hE]

theorem tick_normal (ok : MotorCommand → Bool) (s : LoopState) (i : InputSample)
    (hX : i.buttonX = false) (hC : i.buttonCircle = false) :
    tick ok s i =
      ([normalCmd s i],
        if ok (normalCmd s i) then some (⟨dpadIndex s i.dpad, i.dpad, false⟩, true)
        else none) := by
  simp [tick, hX, hC]

theorem tickFrames_press (s : LoopState) (i : InputSample)
    (hX : i.buttonX = true) (hC : i.buttonCircle = false)
    (hE : s.emergencyStopActive = false) :
    tickFrames s i = [stopCommand] := by
  unfold tickFrames
  rw [tick_press okTransport s i hX hC hE]

theorem tickState_press (s : LoopState) (i : InputSample)
    (hX : i.buttonX = true) (hC : i.buttonCircle = false)
    (hE : s.emergencyStopActive = false) :
    tickState s i = { s with emergencyStopActive := true } := by
  unfold tickState
  rw [tick_press okTransport s i hX hC hE]
  simp [okTransport]

theorem tickFrames_held (s : LoopState) (i : InputSample)
    (hX : i.buttonX = true) (hC : i.buttonCircle = false)
    (hE : s.emergencyStopActive = true) :
    tickFrames s i = [] := by
  unfold tickFrames
  rw [tick_held okTransport s i hX hC hE]

theorem tickState_held (s : LoopState) (i : InputSample)
    (hX : i.buttonX = true) (hC : i.buttonCircle = false)
    (hE : s.emergencyStopActive = true) :
    tickState s i = s := by
  unfold tickState
  rw [tick_held okTransport s i hX hC hE]

theorem tickFrames_normal (s : LoopState) (i : InputSample)
    (hX : i.buttonX = false) (hC : i.buttonCircle = false) :
    tickFrames s i = [normalCmd s i] := by
  unfold tickFrames
  rw [tick_normal okTransport s i hX hC]

theorem tickState_normal (s : LoopState) (i : InputSample)
    (hX : i.buttonX = false) (hC : i.buttonCircle = false) :
    tickState s i = ⟨dpadIndex s i.dpad, i.dpad, false⟩ := by
  unfold tickState
  rw [tick_normal okTransport s i hX hC]
  simp [okTransport]

theorem tickState_quit (s : LoopState) (i : InputSample)
    (hC : i.buttonCircle = true) :
    tickState s i = s := by
  unfold tickState
  rw [tick_quit okTransport s i hC]
  simp [okTransport]

/-! ### Claim theorems about the emergency stop -/

/-- C2 (amended): on the tick the emergency button becomes pressed, the
stop command is sent on that same tick and the latch is set; on subsequent
ticks while the button reads pressed the mixer is never invoked and no
frame at all is emitted (the state also stays unchanged); on the first
tick after release a normal mixed command is produced again. -/
theorem C2_emergency_stop (s : LoopState) (i j : InputSample)
    (hXi : i.buttonX = true) (hCi : i.buttonCircle = false)
    (hE : s.emergencyStopActive = false)
    (hXj : j.buttonX = false) (hCj : j.buttonCircle = false) :
    tickFrames s i = [stopCommand] ∧
    (tickState s i).emergencyStopActive = true ∧
    tickFrames (tickState s i) i = [] ∧
    tickState (tickState s i) i = tickState s i ∧
    tickFrames (tickState s i) j = [normalCmd (tickState s i) j] := by
  have h2 := tickState_press s i hXi hCi hE
  refine ⟨tickFrames_press s i hXi hCi hE, by rw [h2], ?_, ?_,
    tickFrames_normal _ j hXj hCj⟩
  · exact tickFrames_held _ i hXi hCi (by rw [h2])
  · exact tickState_held _ i hXi hCi (by rw [h2])

/-- Witness for C2 from the initial state with the button pressed for two
ticks and then released. -/
theorem C2_witness :
    tickFrames initState pressSample = [stopCommand] ∧
    (tickState initState pressSample).emergencyStopActive = true ∧
    tickFrames (tickState initState pressSample) pressSample = [] ∧
    tickState (tickState initState pressSample) pressSample =
      tickState initState pressSample ∧
    tickFrames (tickState initState pressSample) releaseSample =
      [normalCmd (tickState initState pressSample) releaseSample] :=
  C2_emergency_stop initState pressSample releaseSample rfl rfl rfl rfl rfl

/-- Counterexample to C2 as stated: on the second consecutive tick with the
emergency button pressed, the loop takes the `continue` path with the latch
already set and emits no frame at all, so the stop command is not re-sent on
every pressed tick. -/
theorem C2_counterexample :
    pressSample.buttonX = true ∧
    (tickState initState pressSample).emergencyStopActive = true ∧
    tickFrames (tickState initState pressSample) pressSample = [] := by
  refine ⟨rfl, ?_, ?_⟩
  · rw [tickState_press initState pressSample rfl rfl rfl]
  · exact tickFrames_held _ pressSample rfl rfl
      (by rw [tickState_press initState pressSample rfl rfl rfl])

/-! ### Run-level behavior while the emergency button is held -/

theorem run_nil (s : LoopState) : run s [] = [] := rfl

theorem run_cons (s : LoopState) (i : InputSample) (is : List InputSample) :
    run s (i :: is) =
      match tick okTransport s i with
      | (fs, some (s', true)) => fs :: run s' is
      | (fs, _) => [fs] := rfl

theorem run_held (s : LoopState) (hE : s.emergencyStopActive = true)
    (held : List InputSample)
    (hheld : ∀ j ∈ held, j.buttonX = true ∧ j.buttonCircle = false)
    (r : InputSample) (hXr : r.buttonX = false) (hCr : r.buttonCircle = false) :
    run s (held ++ [r]) =
      (held.map fun _ => ([] : List MotorCommand)) ++ [[normalCmd s r]] := by
  induction held with
  | nil =>
      rw [List.nil_append, run_cons, tick_normal okTransport s r hXr hCr]
      simp [okTransport, run_nil]
  | cons j t ih =>
      have hj := hheld j (List.mem_cons_self j t)
      have ht : ∀ x ∈ t, x.buttonX = true ∧ x.buttonCircle = false :=
        fun x hx => hheld x (List.mem_cons_of_mem j hx)
      rw [List.cons_append, run_cons, tick_held okTransport s j hj.1 hj.2 hE]
      show ([] : List MotorCommand) :: run s (t ++ [r]) = _
      rw [ih ht]
      simp

/-- C10: after the single stop frame sent on the tick the emergency button
becomes pressed, no frame of any kind is emitted on subsequent ticks while
the button stays pressed; transmission resumes with the normal mixed
command on the first tick after release. -/
theorem C10_no_frames_while_held (s : LoopState) (hE : s.emergencyStopActive = false)
    (i : InputSample) (hXi : i.buttonX = true) (hCi : i.buttonCircle = false)
    (held : List InputSample)
    (hheld : ∀ j ∈ held, j.buttonX = true ∧ j.buttonCircle = false)
    (r : InputSample) (hXr : r.buttonX = false) (hCr : r.buttonCircle = false) :
    run s (i :: held ++ [r]) =
      [stopCommand] :: (held.map fun _ => ([] : List MotorCommand)) ++
        [[normalCmd { s with emergencyStopActive := true } r]] := by
  rw [List.cons_append, run_cons, tick_press okTransport s i hXi hCi hE]
  have hok : okTransport stopCommand = true := rfl
  rw [hok]
  simp only [if_true]
  rw [run_held { s with emergencyStopActive := true } rfl held hheld r hXr hCr]
  simp [List.cons_append]

/-- Witness for C10: the button is pressed for three consecutive ticks and
then released; only the first tick emits a frame, and the release tick
emits the normal command. -/
theorem C10_witness :
    run initState (pressSample :: [pressSample, pressSample] ++ [releaseSample]) =
      [stopCommand] :: ([pressSample, pressSample].map fun _ => ([] : List MotorCommand)) ++
        [[normalCmd { initState with emergencyStopActive := true } releaseSample]] :=
  C10_no_frames_while_held initState rfl pressSample rfl rfl
    [pressSample, pressSample] (by decide) releaseSample rfl rfl

/-! ### Claim theorems about the speed-level index -/

theorem dpadIndex_spec (s : LoopState) (d : ℤ × ℤ)
    (h0 : 0 ≤ s.maxSpeedIndex) (h2 : s.maxSpeedIndex ≤ 2) :
    (0 ≤ dpadIndex s d ∧ dpadIndex s d ≤ 2) ∧
    (d = s.lastDpad → dpadIndex s d = s.maxSpeedIndex) ∧
    (dpadIndex s d ≠ s.maxSpeedIndex →
      d ≠ s.lastDpad ∧
      ((d.2 = 1 ∧ dpadIndex s d = min 2 (s.maxSpeedIndex + 1)) ∨
       (d.2 = -1 ∧ dpadIndex s d = max 0 (s.maxSpeedIndex - 1)))) := by
  unfold dpadIndex
  rw [show ((MAX_SPEED_LEVELS.length : ℤ) - 1) = 2 from rfl]
  split_ifs with hne h1 hm1
  · refine ⟨⟨?_, ?_⟩, fun h => absurd h hne, fun _ => ⟨hne, Or.inl ⟨h1, rfl⟩⟩⟩ <;> omega
  · refine ⟨⟨?_, ?_⟩, fun h => absurd h hne, fun _ => ⟨hne, Or.inr ⟨hm1, rfl⟩⟩⟩ <;> omega
  · exact ⟨⟨h0, h2⟩, fun _ => rfl, fun hc => absurd rfl hc⟩
  · exact ⟨⟨h0, h2⟩, fun _ => rfl, fun hc => absurd rfl hc⟩

/-- C5 (amended): the speed-level index stays within [0, 2]; on any tick
whose dpad reading equals the previous reading the index is unchanged; and
the index changes only on a normal tick (no quit, no emergency button) on
which the dpad reading differs from the previous reading and its vertical
component is 1 (increment, saturating at 2) or -1 (decrement, saturating
at 0). A changed reading whose vertical component is still held counts as
such a change, so the trigger is a change of the raw hat tuple, not a
rising edge of the up/down direction itself. -/
theorem C5_speed_index (s : LoopState) (i : InputSample)
    (h0 : 0 ≤ s.maxSpeedIndex) (h2 : s.maxSpeedIndex ≤ 2) :
    (0 ≤ (tickState s i).maxSpeedIndex ∧ (tickState s i).maxSpeedIndex ≤ 2) ∧
    (i.dpad = s.lastDpad → (tickState s i).maxSpeedIndex = s.maxSpeedIndex) ∧
    ((tickState s i).maxSpeedIndex ≠ s.maxSpeedIndex →
      i.buttonCircle = false ∧ i.buttonX = false ∧ i.dpad ≠ s.lastDpad ∧
      ((i.dpad.2 = 1 ∧ (tickState s i).maxSpeedIndex = min 2 (s.maxSpeedIndex + 1)) ∨
       (i.dpad.2 = -1 ∧
         (tickState s i).maxSpeedIndex = max 0 (s.maxSpeedIndex - 1)))) := by
  cases hC : i.buttonCircle with
  | true =>
      rw [tickState_quit s i hC]
      exact ⟨⟨h0, h2⟩, fun _ => rfl, fun hc => absurd rfl hc⟩
  | false =>
      cases hX : i.buttonX with
      | true =>
          cases hE : s.emergencyStopActive with
          | true =>
              rw [tickState_held s i hX hC hE]
              exact ⟨⟨h0, h2⟩, fun _ => rfl, fun hc => absurd rfl hc⟩
          | false =>
              rw [tickState_press s i hX hC hE]
              exact ⟨⟨h0, h2⟩, fun _ => rfl, fun hc => absurd rfl hc⟩
      | false =>
          rw [tickState_normal s i hX hC]
          have hd := dpadIndex_spec s i.dpad h0 h2
          exact ⟨hd.1, hd.2.1,
            fun hne => ⟨rfl, rfl, (hd.2.2 hne).1, (hd.2.2 hne).2⟩⟩

/-- Witness for C5: from index 1 with previous dpad (0, 0), a dpad-down
tick decrements the index to 0. -/
theorem C5_witness :
    (0 ≤ (tickState ⟨1, (0, 0), false⟩ dpadDownSample).maxSpeedIndex ∧
      (tickState ⟨1, (0, 0), false⟩ dpadDownSample).maxSpeedIndex ≤ 2) ∧
    (dpadDownSample.dpad = (⟨1, (0, 0), false⟩ : LoopState).lastDpad →
      (tickState ⟨1, (0, 0), false⟩ dpadDownSample).maxSpeedIndex =
        (⟨1, (0, 0), false⟩ : LoopState).maxSpeedIndex) ∧
    ((tickState ⟨1, (0, 0), false⟩ dpadDownSample).maxSpeedIndex ≠
        (⟨1, (0, 0), false⟩ : LoopState).maxSpeedIndex →
      dpadDownSample.buttonCircle = false ∧ dpadDownSample.buttonX = false ∧
      dpadDownSample.dpad ≠ (⟨1, (0, 0), false⟩ : LoopState).lastDpad ∧
      ((dpadDownSample.dpad.2 = 1 ∧
          (tickState ⟨1, (0, 0), false⟩ dpadDownSample).maxSpeedIndex =
            min 2 ((⟨1, (0, 0), false⟩ : LoopState).maxSpeedIndex + 1)) ∨
       (dpadDownSample.dpad.2 = -1 ∧
          (tickState ⟨1, (0, 0), false⟩ dpadDownSample).maxSpeedIndex =
            max 0 ((⟨1, (0, 0), false⟩ : LoopState).maxSpeedIndex - 1)))) :=
  C5_speed_index ⟨1, (0, 0), false⟩ dpadDownSample (by decide) (by decide)

/-- Counterexample to C5 as stated: starting from the initial state, a
dpad-down tick moves the index from 2 to 1 and records the reading (0, -1);
the next reading (1, -1) still has the down direction held (vertical
component -1 on both ticks, so no rising edge of dpad down), yet because
the hat tuple changed the index is decremented again, to 0. -/
theorem C5_counterexample :
    (tickState initState dpadDownSample).maxSpeedIndex = 1 ∧
    (tickState initState dpadDownSample).lastDpad = (0, -1) ∧
    dpadDownRightSample.dpad = (1, -1) ∧
    (tickState (tickState initState dpadDownSample)
        dpadDownRightSample).maxSpeedIndex = 0 := by
  have h1 : tickState initState dpadDownSample = ⟨1, (0, -1), false⟩ := by
    rw [tickState_normal initState dpadDownSample rfl rfl]
    decide
  have h2 : tickState (⟨1, (0, -1), false⟩ : LoopState) dpadDownRightSample =
      ⟨0, (1, -1), false⟩ := by
    rw [tickState_normal _ dpadDownRightSample rfl rfl]
    decide
  rw [h1, h2]
  exact ⟨rfl, rfl, rfl, rfl⟩

/-! ### Claim theorems about loop termination -/

/-- C6 (amended): when the quit signal is read, the loop attempts exactly
one final stop send and terminates, a failure of that send propagating to
the caller (where it is reported) rather than being retried; when a
transport write fails on a normal tick, the loop terminates by propagating
the error without attempting any further stop command. -/
theorem C6_termination_paths (ok : MotorCommand → Bool) (s : LoopState)
    (i : InputSample) :
    (i.buttonCircle = true →
      tick ok s i =
        ([stopCommand], if ok stopCommand then some (s, false) else none)) ∧
    (i.buttonCircle = false → i.buttonX = false → ok (normalCmd s i) = false →
      tick ok s i = ([normalCmd s i], none)) := by
  constructor
  · exact fun hC => tick_quit ok s i hC
  · intro hC hX hok
    rw [tick_normal ok s i hX hC, hok]
    simp

/-- Witness for C6: with a transport that always fails, the quit tick
attempts the one stop frame and propagates the failure, and a normal
forward tick propagates the failure with no stop attempt. -/
theorem C6_witness :
    tick failTransport initState quitSample = ([stopCommand], none) ∧
    tick failTransport initState fwdSample =
      ([normalCmd initState fwdSample], none) := by
  constructor
  · have h := (C6_termination_paths failTransport initState quitSample).1 rfl
    rw [h]
    rfl
  · exact (C6_termination_paths failTransport initState fwdSample).2 rfl rfl rfl

/-- Counterexample to C6 as stated: when the transport write of a normal
(non-stop) command fails, the loop terminates with the error propagated and
the only frame whose send was ever attempted on that terminating tick is
the forward command, not a stop command: no final stop is attempted on the
transport-error exit path. -/
theorem C6_counterexample :
    tick failTransport initState fwdSample =
      ([calculate_motor_command 0 (-1) 100], none) ∧
    calculate_motor_command 0 (-1) 100 ≠ stopCommand := by
  constructor
  · have h : normalCmd initState fwdSample = calculate_motor_command 0 (-1) 100 := by
      have h1 : dpadIndex initState (0, 0) = 2 := by decide
      unfold normalCmd
      rw [show fwdSample.leftX = 0 from rfl, show fwdSample.leftY = -1 from rfl,
        show fwdSample.dpad = (0, 0) from rfl, h1,
        show levelOf 2 = ((100 : ℕ) : ℚ) from rfl, Nat.cast_ofNat]
    rw [tick_normal failTransport initState fwdSample rfl rfl, h]
    simp [failTransport]
  · rw [calc_fwd100]
    decide

/-! ### Claim theorem about the differential-steer policy -/

/-- C8 (spec-modelled): the `translate` entry point dispatches between the
tank-drive policy (the code of controller_dualsense.py) and the
differential-steer policy modelled from the spec; under the differential
policy, full forward at level 100 drives both wheels forward at 100, a
half-right turn at full forward reduces the inside (right) wheel by
`100 * 0.5 * 0.5 = 25` to 75, and a gentler forward speed shows the
minimum-speed clamp at MIN_SPEED = 15. -/
theorem C8_differential_policy :
    translate 1 0 100 Policy.tank = calculate_motor_command 1 0 100 ∧
    translate 0 (-1) 100 Policy.differential = ⟨100, 1, 100, 1, 2⟩ ∧
    translate (1/2) (-1) 100 Policy.differential = ⟨100, 1, 75, 1, 2⟩ ∧
    translate 1 (-(1/5)) 100 Policy.differential = ⟨20, 1, 15, 1, 2⟩ ∧
    MIN_SPEED = 15 := by
  have hay1 : applyDeadzone (-1 : ℚ) = -1 := applyDeadzone_big dz_le_abs_negOne
  have hbase1 : diffBase (-1) 100 = 100 := by
    unfold diffBase
    rw [pytrunc_eq_of_eq_intCast
      (show |(-1:ℚ)| * ((100:ℤ):ℚ) = ((100:ℤ):ℚ) by push_cast; norm_num)]
    decide
  have hdir1 : diffDir (-1) = 1 := if_pos (by norm_num)
  refine ⟨rfl, ?_, ?_, ?_, rfl⟩
  · show translate_differential 0 (-1) 100 = ⟨100, 1, 100, 1, 2⟩
    unfold translate_differential
    rw [applyDeadzone_small abs_zero_lt_dz, hay1,
      if_neg (by norm_num : ¬((0:ℚ) = 0 ∧ (-1:ℚ) = 0)),
      if_neg (lt_irrefl (0:ℚ)), if_neg (lt_irrefl (0:ℚ)), hbase1, hdir1]
  · show translate_differential (1/2) (-1) 100 = ⟨100, 1, 75, 1, 2⟩
    have hax : applyDeadzone (1/2 : ℚ) = 1/2 :=
      applyDeadzone_big
        (by rw [abs_of_nonneg (by norm_num : (0:ℚ) ≤ 1/2)]; norm_num [DEADZONE])
    have hinner : diffInner (1/2) (-1) 100 = 75 := by
      unfold diffInner
      rw [hbase1, pytrunc_eq_of_eq_intCast
        (show ((100:ℤ):ℚ) * |(1/2:ℚ)| * (1/2) = ((25:ℤ):ℚ) by
          rw [abs_of_nonneg (by norm_num : (0:ℚ) ≤ 1/2)]; push_cast; norm_num)]
      decide
    unfold translate_differential
    rw [hax, hay1,
      if_neg (by norm_num : ¬((1/2:ℚ) = 0 ∧ (-1:ℚ) = 0)),
      if_pos (by norm_num : (0:ℚ) < 1/2), hbase1, hdir1, hinner]
  · show translate_differential 1 (-(1/5)) 100 = ⟨20, 1, 15, 1, 2⟩
    have hax : applyDeadzone (1 : ℚ) = 1 := applyDeadzone_big dz_le_abs_one
    have hay : applyDeadzone (-(1/5) : ℚ) = -(1/5) :=
      applyDeadzone_big
        (by rw [abs_neg, abs_of_nonneg (by norm_num : (0:ℚ) ≤ 1/5)]
            norm_num [DEADZONE])
    have hbase : diffBase (-(1/5)) 100 = 20 := by
      unfold diffBase
      rw [pytrunc_eq_of_eq_intCast
        (show |(-(1/5):ℚ)| * ((100:ℤ):ℚ) = ((20:ℤ):ℚ) by
          rw [abs_neg, abs_of_nonneg (by norm_num : (0:ℚ) ≤ 1/5)]
          push_cast; norm_num)]
      decide
    have hdir : diffDir (-(1/5)) = 1 := if_pos (by norm_num)
    have hinner : diffInner 1 (-(1/5)) 100 = 15 := by
      unfold diffInner
      rw [hbase, pytrunc_eq_of_eq_intCast
        (show ((20:ℤ):ℚ) * |(1:ℚ)| * (1/2) = ((10:ℤ):ℚ) by
          rw [abs_of_nonneg (by norm_num : (0:ℚ) ≤ 1)]; push_cast; norm_num)]
      decide
    unfold translate_differential
    rw [hax, hay,
      if_neg (by norm_num : ¬((1:ℚ) = 0 ∧ (-(1/5):ℚ) = 0)),
      if_pos (by norm_num : (0:ℚ) < 1), hbase, hdir, hinner]

end Racer
